import Mathlib

/-!
Shallow embedding of the reliable message-processing core of this repository:
the circuit breaker, the retry/backoff decorator, the idempotency filter, the
request/reply correlator and the saga orchestrator, together with theorems
checking the specified properties against these embeddings.

Sources embedded:
- CircuitBreaker, MessageProcessor.createRetryHandler,
  MessageProcessor.createIdempotentHandler, SagaOrchestrator (processor module);
- RabbitMQConnection.handleMessageWithRetry, RabbitMQConnection.rpc
  (shared messaging connection module).
-/

namespace RabbitMQSpec

/-! ## Circuit breaker

Embeds the CircuitBreaker class: state (CLOSED / OPEN / HALF_OPEN), a
consecutive-failure counter, and the last-failure timestamp.  Times are
naturals (milliseconds, as Date.now()).  The per-call timeout race is absorbed
into the boolean outcome of the operation: a timed-out operation counts as a
failing operation, exactly as the code's Promise.race + throw does. -/

inductive CBState where
  | CLOSED
  | OPEN
  | HALF_OPEN
deriving DecidableEq, Repr

structure CBConfig where
  failureThreshold : Nat
  resetTimeout : Nat
deriving DecidableEq, Repr

structure CircuitBreaker where
  state : CBState
  failures : Nat
  lastFailureTime : Nat
deriving DecidableEq, Repr

/-- Initial breaker: state = CLOSED, failures = 0, lastFailureTime = 0. -/
def initBreaker : CircuitBreaker := ⟨CBState.CLOSED, 0, 0⟩

/-- Outcome of one execute call: the operation ran and succeeded, ran and
failed, or the call was rejected by the open breaker without running it. -/
inductive CBResult where
  | success
  | failure
  | rejected
deriving DecidableEq, Repr

/-- onSuccess: reset the failure counter; leave HALF_OPEN for CLOSED. -/
def onSuccess (cb : CircuitBreaker) : CircuitBreaker :=
  { cb with
    failures := 0
    state := if cb.state = CBState.HALF_OPEN then CBState.CLOSED else cb.state }

/-- onFailure: increment the counter, stamp the failure time, and open the
breaker once the counter reaches the threshold. -/
def onFailure (cfg : CBConfig) (cb : CircuitBreaker) (now : Nat) : CircuitBreaker :=
  let f := cb.failures + 1
  { state := if cfg.failureThreshold ≤ f then CBState.OPEN else cb.state
    failures := f
    lastFailureTime := now }

/-- execute: when OPEN, either transition to HALF_OPEN (cooldown elapsed) and
let the call through, or reject without invoking the operation.  Otherwise run
the operation (its outcome is `opSucceeds`) and apply onSuccess / onFailure.
Returns the new breaker, the call outcome, and whether the operation was
invoked.  With naturals, `now - cb.lastFailureTime > resetTimeout` agrees with
the source's integer test whenever `now ≥ lastFailureTime`, and both tests are
false when `now < lastFailureTime`. -/
def execute (cfg : CBConfig) (cb : CircuitBreaker) (now : Nat) (opSucceeds : Bool) :
    CircuitBreaker × CBResult × Bool :=
  let step : CircuitBreaker × Bool :=
    if cb.state = CBState.OPEN then
      if cfg.resetTimeout < now - cb.lastFailureTime then
        ({ cb with state := CBState.HALF_OPEN }, true)
      else
        (cb, false)
    else
      (cb, true)
  if step.2 then
    if opSucceeds then
      (onSuccess step.1, CBResult.success, true)
    else
      (onFailure cfg step.1 now, CBResult.failure, true)
  else
    (cb, CBResult.rejected, false)

/-- Run the breaker along a trace of calls, each a (time, operation outcome)
pair, from a given starting breaker. -/
def runCB (cfg : CBConfig) : CircuitBreaker → List (Nat × Bool) → CircuitBreaker
  | cb, [] => cb
  | cb, (t, r) :: rest => runCB cfg (execute cfg cb t r).1 rest

/-- Reachability invariant of the breaker: in CLOSED the counter is below the
threshold; in OPEN or HALF_OPEN the counter has reached it. -/
def CBInv (cfg : CBConfig) (cb : CircuitBreaker) : Prop :=
  (cb.state = CBState.CLOSED → cb.failures < cfg.failureThreshold) ∧
  (cb.state ≠ CBState.CLOSED → cfg.failureThreshold ≤ cb.failures)

lemma cbInv_init (cfg : CBConfig) (hth : 1 ≤ cfg.failureThreshold) :
    CBInv cfg initBreaker := by
  constructor
  · intro _; simpa [initBreaker] using hth
  · intro h; simp [initBreaker] at h

lemma cbInv_execute (cfg : CBConfig) (cb : CircuitBreaker) (now : Nat) (r : Bool)
    (hth : 1 ≤ cfg.failureThreshold) (h : CBInv cfg cb) :
    CBInv cfg (execute cfg cb now r).1 := by
  obtain ⟨hc, ho⟩ := h
  cases hst : cb.state with
  | CLOSED =>
      have hf : cb.failures < cfg.failureThreshold := hc hst
      cases r with
      | false =>
          by_cases hge : cfg.failureThreshold ≤ cb.failures + 1 <;>
            simp [execute, hst, onFailure, hge, CBInv] <;> omega
      | true =>
          simp [execute, hst, onSuccess, CBInv] <;> omega
  | HALF_OPEN =>
      have hf : cfg.failureThreshold ≤ cb.failures := ho (by simp [hst])
      cases r with
      | false =>
          have hge : cfg.failureThreshold ≤ cb.failures + 1 := by omega
          simp [execute, hst, onFailure, hge, CBInv] <;> omega
      | true =>
          simp [execute, hst, onSuccess, CBInv]
          omega
  | OPEN =>
      have hf : cfg.failureThreshold ≤ cb.failures := ho (by simp [hst])
      by_cases helapsed : cfg.resetTimeout < now - cb.lastFailureTime
      · cases r with
        | false =>
            have hge : cfg.failureThreshold ≤ cb.failures + 1 := by omega
            simp [execute, hst, helapsed, onFailure, hge, CBInv] <;> omega
        | true =>
            simp [execute, hst, helapsed, onSuccess, CBInv]
            omega
      · have heq : (execute cfg cb now r).1 = cb := by
          simp [execute, hst, helapsed]
        rw [heq]
        exact ⟨hc, ho⟩

lemma cbInv_runCB (cfg : CBConfig) (hth : 1 ≤ cfg.failureThreshold)
    (tr : List (Nat × Bool)) : CBInv cfg (runCB cfg initBreaker tr) := by
  suffices h : ∀ cb, CBInv cfg cb → CBInv cfg (runCB cfg cb tr) from
    h initBreaker (cbInv_init cfg hth)
  induction tr with
  | nil => intro cb h; exact h
  | cons p rest ih =>
      intro cb h
      exact ih _ (cbInv_execute cfg cb p.1 p.2 hth h)

lemma runCB_fail_closed (cfg : CBConfig) (now : Nat) :
    ∀ (m k lt : Nat), k + m < cfg.failureThreshold →
      runCB cfg ⟨CBState.CLOSED, k, lt⟩ (List.replicate m (now, false)) =
        ⟨CBState.CLOSED, k + m, if m = 0 then lt else now⟩ := by
  intro m
  induction m with
  | zero => intro k lt _; simp [runCB]
  | succ m ih =>
      intro k lt h
      have hlt : ¬ cfg.failureThreshold ≤ k + 1 := by omega
      have hexec : (execute cfg ⟨CBState.CLOSED, k, lt⟩ now false).1 =
          ⟨CBState.CLOSED, k + 1, now⟩ := by
        simp [execute, onFailure, hlt]
      rw [List.replicate_succ]
      show runCB cfg (execute cfg ⟨CBState.CLOSED, k, lt⟩ now false).1
             (List.replicate m (now, false)) = _
      rw [hexec, ih (k + 1) now (by omega)]
      have harith : k + 1 + m = k + (m + 1) := by omega
      by_cases hm : m = 0 <;> simp [hm, harith]

lemma runCB_fail_opens (cfg : CBConfig) (now : Nat) :
    ∀ (m k lt : Nat), 1 ≤ m → k + m = cfg.failureThreshold →
      runCB cfg ⟨CBState.CLOSED, k, lt⟩ (List.replicate m (now, false)) =
        ⟨CBState.OPEN, cfg.failureThreshold, now⟩ := by
  intro m
  induction m with
  | zero => intro k lt h _; omega
  | succ m ih =>
      intro k lt _ h
      rw [List.replicate_succ]
      by_cases hm : m = 0
      · subst hm
        have hge : cfg.failureThreshold ≤ k + 1 := by omega
        have hexec : (execute cfg ⟨CBState.CLOSED, k, lt⟩ now false).1 =
            ⟨CBState.OPEN, k + 1, now⟩ := by
          simp [execute, onFailure, hge]
        show runCB cfg (execute cfg ⟨CBState.CLOSED, k, lt⟩ now false).1
               (List.replicate 0 (now, false)) = _
        rw [hexec]
        simp [runCB]
        omega
      · have hlt : ¬ cfg.failureThreshold ≤ k + 1 := by omega
        have hexec : (execute cfg ⟨CBState.CLOSED, k, lt⟩ now false).1 =
            ⟨CBState.CLOSED, k + 1, now⟩ := by
          simp [execute, onFailure, hlt]
        show runCB cfg (execute cfg ⟨CBState.CLOSED, k, lt⟩ now false).1
               (List.replicate m (now, false)) = _
        rw [hexec]
        exact ih (k + 1) now (by omega) (by omega)

/-- C3: after exactly failureThreshold consecutive failures the breaker is
OPEN (and still CLOSED after any smaller number); an execute call while OPEN
whose elapsed time since the last failure is at most resetTimeout returns a
breaker-open rejection without invoking the operation and leaves the breaker
unchanged; an execute call while OPEN with elapsed time beyond resetTimeout
invokes the operation (the HALF_OPEN probe) and moves the breaker to CLOSED
when the probe succeeds and back to OPEN when it fails.  The breaker is
quantified over all states reachable by some call trace. -/
theorem C3_circuit_breaker_transitions (cfg : CBConfig) (tr : List (Nat × Bool))
    (now t1 t2 n : Nat) (cb : CircuitBreaker)
    (hth : 1 ≤ cfg.failureThreshold)
    (hn : n < cfg.failureThreshold)
    (hcb : cb = runCB cfg initBreaker tr)
    (hopen : cb.state = CBState.OPEN)
    (h1 : t1 - cb.lastFailureTime ≤ cfg.resetTimeout)
    (h2 : cfg.resetTimeout < t2 - cb.lastFailureTime) :
    (runCB cfg initBreaker (List.replicate cfg.failureThreshold (now, false))).state
        = CBState.OPEN
    ∧ (runCB cfg initBreaker (List.replicate n (now, false))).state = CBState.CLOSED
    ∧ execute cfg cb t1 true = (cb, CBResult.rejected, false)
    ∧ execute cfg cb t1 false = (cb, CBResult.rejected, false)
    ∧ (execute cfg cb t2 true).2.2 = true
    ∧ (execute cfg cb t2 true).1.state = CBState.CLOSED
    ∧ (execute cfg cb t2 false).2.2 = true
    ∧ (execute cfg cb t2 false).1.state = CBState.OPEN := by
  have hrej : ¬ cfg.resetTimeout < t1 - cb.lastFailureTime := not_lt.2 h1
  have hinv : CBInv cfg cb := hcb ▸ cbInv_runCB cfg hth tr
  have hf : cfg.failureThreshold ≤ cb.failures := hinv.2 (by simp [hopen])
  have hge : cfg.failureThreshold ≤ cb.failures + 1 := by omega
  refine ⟨?_, ?_, ?_, ?_, ?_, ?_, ?_, ?_⟩
  · rw [show initBreaker = ⟨CBState.CLOSED, 0, 0⟩ from rfl,
        runCB_fail_opens cfg now cfg.failureThreshold 0 0 hth (by omega)]
  · rw [show initBreaker = ⟨CBState.CLOSED, 0, 0⟩ from rfl,
        runCB_fail_closed cfg now n 0 0 (by omega)]
  · simp [execute, hopen, hrej]
  · simp [execute, hopen, hrej]
  · simp [execute, hopen, h2]
  · simp [execute, hopen, h2, onSuccess]
  · simp [execute, hopen, h2]
  · simp [execute, hopen, h2, onFailure, hge]

/-- Witness for C3 at failureThreshold 2, resetTimeout 10: two consecutive
failures at time 100 open the breaker; at time 105 the call is rejected
unchanged; at time 117 the probe runs, closing on success and re-opening on
failure. -/
theorem C3_circuit_breaker_transitions_witness :
    (runCB ⟨2, 10⟩ initBreaker (List.replicate 2 (100, false))).state = CBState.OPEN
    ∧ (runCB ⟨2, 10⟩ initBreaker (List.replicate 1 (100, false))).state = CBState.CLOSED
    ∧ execute ⟨2, 10⟩ ⟨CBState.OPEN, 2, 100⟩ 105 true
        = (⟨CBState.OPEN, 2, 100⟩, CBResult.rejected, false)
    ∧ execute ⟨2, 10⟩ ⟨CBState.OPEN, 2, 100⟩ 105 false
        = (⟨CBState.OPEN, 2, 100⟩, CBResult.rejected, false)
    ∧ (execute ⟨2, 10⟩ ⟨CBState.OPEN, 2, 100⟩ 117 true).2.2 = true
    ∧ (execute ⟨2, 10⟩ ⟨CBState.OPEN, 2, 100⟩ 117 true).1.state = CBState.CLOSED
    ∧ (execute ⟨2, 10⟩ ⟨CBState.OPEN, 2, 100⟩ 117 false).2.2 = true
    ∧ (execute ⟨2, 10⟩ ⟨CBState.OPEN, 2, 100⟩ 117 false).1.state = CBState.OPEN :=
  C3_circuit_breaker_transitions ⟨2, 10⟩ [(100, false), (100, false)] 100 105 117 1
    ⟨CBState.OPEN, 2, 100⟩ (by decide) (by decide) (by decide) (by decide)
    (by decide) (by decide)

/-- C8 counterexample: with failureThreshold 1 and resetTimeout 10, one
failure at time 100 opens the breaker at counter 1; the call at time 150 is a
HALF_OPEN probe (the operation is invoked) whose failure transitions the
breaker back to OPEN at counter 2 — a transition to OPEN at a counter value
other than the threshold, contradicting the claim. -/
theorem C8_counterexample_reopen_above_threshold :
    ((execute ⟨1, 10⟩ initBreaker 100 false).1.state = CBState.OPEN
      ∧ (execute ⟨1, 10⟩ initBreaker 100 false).1.failures = 1)
    ∧ (execute ⟨1, 10⟩ (execute ⟨1, 10⟩ initBreaker 100 false).1 150 false).2.2 = true
    ∧ (execute ⟨1, 10⟩ (execute ⟨1, 10⟩ initBreaker 100 false).1 150 false).1.state
        = CBState.OPEN
    ∧ (execute ⟨1, 10⟩ (execute ⟨1, 10⟩ initBreaker 100 false).1 150 false).1.failures = 2
    ∧ (⟨1, 10⟩ : CBConfig).failureThreshold = 1 := by decide

/-- C8 amended: the counter resets to zero on a successful operation while the
breaker is CLOSED, and from any reachable CLOSED state a failing operation
increments the counter by one and transitions the breaker to OPEN exactly when
the incremented counter equals the threshold; a failed HALF_OPEN probe,
however, re-opens the breaker at counter values above the threshold. -/
theorem C8_amended_closed_opens_exactly_at_threshold (cfg : CBConfig)
    (tr : List (Nat × Bool)) (t : Nat)
    (hth : 1 ≤ cfg.failureThreshold)
    (hclosed : (runCB cfg initBreaker tr).state = CBState.CLOSED) :
    (execute cfg (runCB cfg initBreaker tr) t true).1.failures = 0
    ∧ (execute cfg (runCB cfg initBreaker tr) t false).1.failures
        = (runCB cfg initBreaker tr).failures + 1
    ∧ ((execute cfg (runCB cfg initBreaker tr) t false).1.state = CBState.OPEN
        ↔ (runCB cfg initBreaker tr).failures + 1 = cfg.failureThreshold) := by
  have hinv : CBInv cfg (runCB cfg initBreaker tr) := cbInv_runCB cfg hth tr
  have hf : (runCB cfg initBreaker tr).failures < cfg.failureThreshold :=
    hinv.1 hclosed
  refine ⟨?_, ?_, ?_⟩
  · simp [execute, hclosed, onSuccess]
  · simp [execute, hclosed, onFailure]
  · by_cases hge : cfg.failureThreshold ≤ (runCB cfg initBreaker tr).failures + 1 <;>
      simp [execute, hclosed, onFailure, hge] <;> omega

/-- Witness for the amended C8: after one failure at time 50 with threshold 2
the breaker is CLOSED at counter 1; a success at time 60 resets the counter
and a failure at time 60 opens the breaker exactly as the counter reaches 2. -/
theorem C8_amended_witness :
    (execute ⟨2, 10⟩ (runCB ⟨2, 10⟩ initBreaker [(50, false)]) 60 true).1.failures = 0
    ∧ (execute ⟨2, 10⟩ (runCB ⟨2, 10⟩ initBreaker [(50, false)]) 60 false).1.failures
        = (runCB ⟨2, 10⟩ initBreaker [(50, false)]).failures + 1
    ∧ ((execute ⟨2, 10⟩ (runCB ⟨2, 10⟩ initBreaker [(50, false)]) 60 false).1.state
          = CBState.OPEN
        ↔ (runCB ⟨2, 10⟩ initBreaker [(50, false)]).failures + 1
            = (⟨2, 10⟩ : CBConfig).failureThreshold) :=
  C8_amended_closed_opens_exactly_at_threshold ⟨2, 10⟩ [(50, false)] 60
    (by decide) (by decide)

/-! ## Retry/backoff decorator

Embeds both retry paths:
- MessageProcessor.createRetryHandler (processor module): on handler failure
  with retryCount < maxRetries, publish the message to the retry exchange with
  delay = baseDelay * 2 ^ retryCount and header retryCount + 1, then ack; on
  exhaustion, nack without requeue and return normally;
- RabbitMQConnection.handleMessageWithRetry (connection module): same retry
  publication with delay = retryDelay * 2 ^ retryCount, ack on handler success
  (when not autoAck), and on exhaustion nack without requeue and throw
  RetryExhaustedError.

The header `retryCount` may be absent (the code applies `|| 0`), modelled as
an Option Nat read through getD 0.  The underlying handler's outcome for this
delivery is the boolean `handlerFails`. -/

structure DeliveryResult (μ : Type) where
  publishedRetry : Option (μ × Nat × Nat)
  ackedOriginal : Bool
  nackedNoRequeue : Bool
  raised : Option String
deriving DecidableEq, Repr

/-- MessageProcessor.createRetryHandler (defaults maxRetries = 3,
baseDelay = 1000).  `publishedRetry` carries (payload, delay headers x-delay,
republished retryCount header). -/
def createRetryHandler {μ : Type} (maxRetries baseDelay : Nat)
    (handlerFails : Bool) (message : μ) (retryCountHeader : Option Nat) :
    DeliveryResult μ :=
  let retryCount := retryCountHeader.getD 0
  if !handlerFails then
    ⟨none, false, false, none⟩
  else if retryCount < maxRetries then
    ⟨some (message, baseDelay * 2 ^ retryCount, retryCount + 1), true, false, none⟩
  else
    ⟨none, false, true, none⟩

/-- RabbitMQConnection.handleMessageWithRetry (defaults maxRetries = 3,
retryDelay = 1000, autoAck = false). -/
def handleMessageWithRetry {μ : Type} (maxRetries retryDelay : Nat)
    (autoAck : Bool) (handlerFails : Bool) (message : μ)
    (retryCountHeader : Option Nat) : DeliveryResult μ :=
  let retryCount := retryCountHeader.getD 0
  if !handlerFails then
    ⟨none, !autoAck, false, none⟩
  else if retryCount < maxRetries then
    ⟨some (message, retryDelay * 2 ^ retryCount, retryCount + 1), true, false, none⟩
  else
    ⟨none, false, true, some "RetryExhaustedError"⟩

/-- Header value carried by the k-th delivery of a message whose handler
always fails: delivery 0 carries the default counter 0, and delivery k + 1
exists exactly when delivery k was republished for retry, carrying the
republished counter. -/
def retryHeaderAt {μ : Type} (maxRetries baseDelay : Nat) (message : μ) :
    Nat → Option Nat
  | 0 => some 0
  | k + 1 =>
      match retryHeaderAt maxRetries baseDelay message k with
      | none => none
      | some h =>
          match (createRetryHandler maxRetries baseDelay true message
                  (some h)).publishedRetry with
          | none => none
          | some p => some p.2.2

lemma retryHeaderAt_eq {μ : Type} (maxRetries baseDelay : Nat) (message : μ) :
    ∀ k, retryHeaderAt maxRetries baseDelay message k =
      if k ≤ maxRetries then some k else none := by
  intro k
  induction k with
  | zero => simp [retryHeaderAt]
  | succ k ih =>
      rw [retryHeaderAt, ih]
      by_cases hk : k ≤ maxRetries
      · by_cases hlt : k < maxRetries
        · simp [hk, createRetryHandler, hlt, Nat.succ_le_of_lt hlt]
        · have hk1 : ¬ k + 1 ≤ maxRetries := by omega
          simp [hk, createRetryHandler, hlt, hk1]
      · have hk1 : ¬ k + 1 ≤ maxRetries := by omega
        simp [hk, hk1]

/-- C4: when the underlying handler fails and the attempt counter (header,
default 0) is below maxRetries, both retry paths republish the same message
with delay baseDelay * 2 ^ attemptCount and the counter header incremented by
exactly one, acknowledging the original delivery, without nacking and without
raising; consequently the counter of the k-th retry cycle of an always-failing
message is exactly k, and no delivery beyond cycle maxRetries exists. -/
theorem C4_retry_backoff_and_monotonicity {μ : Type} (maxRetries baseDelay : Nat)
    (message : μ) (retryCountHeader : Option Nat) (k : Nat)
    (h : retryCountHeader.getD 0 < maxRetries) :
    createRetryHandler maxRetries baseDelay true message retryCountHeader
      = ⟨some (message, baseDelay * 2 ^ retryCountHeader.getD 0,
              retryCountHeader.getD 0 + 1), true, false, none⟩
    ∧ handleMessageWithRetry maxRetries baseDelay false true message retryCountHeader
      = ⟨some (message, baseDelay * 2 ^ retryCountHeader.getD 0,
              retryCountHeader.getD 0 + 1), true, false, none⟩
    ∧ retryHeaderAt maxRetries baseDelay message k
        = (if k ≤ maxRetries then some k else none) := by
  refine ⟨?_, ?_, retryHeaderAt_eq maxRetries baseDelay message k⟩
  · simp [createRetryHandler, h]
  · simp [handleMessageWithRetry, h]

/-- Witness for C4: maxRetries = 3, baseDelay = 1000, absent counter header
(defaults to 0), payload 7; the retry is published with delay 1000 and counter
1; the counter at cycle 2 is 2 and cycle 5 does not exist. -/
theorem C4_retry_backoff_and_monotonicity_witness :
    (createRetryHandler 3 1000 true (7 : Nat) none
      = ⟨some (7, 1000, 1), true, false, none⟩
     ∧ handleMessageWithRetry 3 1000 false true (7 : Nat) none
      = ⟨some (7, 1000, 1), true, false, none⟩
     ∧ retryHeaderAt 3 1000 (7 : Nat) 2 = (if 2 ≤ 3 then some 2 else none))
    ∧ retryHeaderAt 3 1000 (7 : Nat) 5 = (if 5 ≤ 3 then some 5 else none) := by
  refine ⟨?_, ?_⟩
  · have h := C4_retry_backoff_and_monotonicity 3 1000 (7 : Nat) none 2 (by decide)
    simpa using h
  · have h := C4_retry_backoff_and_monotonicity 3 1000 (7 : Nat) none 5 (by decide)
    exact h.2.2

/-- C6 counterexample: MessageProcessor.createRetryHandler with the attempt
counter at maxRetries and a failing handler nacks without requeue but raises
nothing upward — the terminal outcome is not reported to the caller as a
retries-exhausted error, contradicting the claim for this wrapped handler. -/
theorem C6_counterexample_processor_swallows_exhaustion :
    (createRetryHandler 3 1000 true (0 : Nat) (some 3)).nackedNoRequeue = true
    ∧ (createRetryHandler 3 1000 true (0 : Nat) (some 3)).raised = none := by
  decide

/-- C6 amended: on a handler failure with the attempt counter at or above
maxRetries, both retry paths negative-acknowledge without requeue (routing the
message to dead-letter) and republish nothing; the connection-level
handleMessageWithRetry reports the outcome upward by throwing
RetryExhaustedError, while MessageProcessor.createRetryHandler returns
normally without raising any error. -/
theorem C6_amended_exhaustion_paths {μ : Type} (maxRetries baseDelay retryDelay : Nat)
    (message : μ) (retryCountHeader : Option Nat)
    (h : maxRetries ≤ retryCountHeader.getD 0) :
    createRetryHandler maxRetries baseDelay true message retryCountHeader
      = ⟨none, false, true, none⟩
    ∧ handleMessageWithRetry maxRetries retryDelay false true message retryCountHeader
      = ⟨none, false, true, some "RetryExhaustedError"⟩ := by
  have hlt : ¬ retryCountHeader.getD 0 < maxRetries := not_lt.2 h
  constructor
  · simp [createRetryHandler, hlt]
  · simp [handleMessageWithRetry, hlt]

/-- Witness for the amended C6 at maxRetries = 3, counter header 3. -/
theorem C6_amended_exhaustion_paths_witness :
    createRetryHandler 3 1000 true (0 : Nat) (some 3) = ⟨none, false, true, none⟩
    ∧ handleMessageWithRetry 3 1000 false true (0 : Nat) (some 3)
      = ⟨none, false, true, some "RetryExhaustedError"⟩ :=
  C6_amended_exhaustion_paths 3 1000 1000 (0 : Nat) (some 3) (by decide)

/-! ## Idempotency filter

Embeds MessageProcessor.createIdempotentHandler.  The processed-message cache
is a Set of string keys, modelled as a list without duplicates maintained by
append-if-absent (Set.add).  The key is `message.id || context.correlationId`,
where the JavaScript or-operator treats the empty string as falsy; a falsy
resolved key means the message is processed without consulting or updating the
cache.  The underlying handler's outcome is the boolean `handlerFails`; a
failing handler rethrows and the key is not recorded. -/

/-- JavaScript truthiness of an optional string: absent and empty are falsy. -/
def strTruthy : Option String → Option String
  | none => none
  | some s => if s = "" then none else some s

/-- The resolved message key, `message.id || context.correlationId`. -/
def resolveId (messageId correlationId : Option String) : Option String :=
  match strTruthy messageId with
  | some s => some s
  | none => strTruthy correlationId

structure IdemResult where
  cache : List String
  handlerInvoked : Bool
  ackedWithoutHandler : Bool
  errored : Bool
deriving DecidableEq, Repr

/-- MessageProcessor.createIdempotentHandler, one delivery: skip and ack when
the key is cached; otherwise invoke the handler, recording the key only when
it succeeds and rethrowing when it fails. -/
def createIdempotentHandler (cache : List String)
    (messageId correlationId : Option String) (handlerFails : Bool) :
    IdemResult :=
  match resolveId messageId correlationId with
  | none => ⟨cache, true, false, handlerFails⟩
  | some key =>
      if cache.contains key then
        ⟨cache, false, true, false⟩
      else if handlerFails then
        ⟨cache, true, false, true⟩
      else
        ⟨cache ++ [key], true, false, false⟩

/-- Fold a sequence of successful deliveries, one per key, through the
idempotency filter, threading the cache. -/
def processKeys (cache : List String) : List String → List String
  | [] => cache
  | k :: ks => processKeys (createIdempotentHandler cache (some k) none false).cache ks

/-- C5: for a message whose resolved key is not yet recorded, a successful
delivery invokes the handler and records the key, after which a second
delivery of the same key is acknowledged without invoking the handler and
without changing the cache (so two sequential deliveries invoke the handler
exactly once); for any cached key the handler is never invoked regardless of
its outcome; and a failing delivery leaves the key unrecorded and rethrows, so
a retried delivery of the same key is reprocessed. -/
theorem C5_idempotent_exactly_once (cache cache2 : List String) (k : String)
    (correlationId : Option String) (b : Bool)
    (hk : k ≠ "")
    (hnew : cache.contains k = false)
    (hdup : cache2.contains k = true) :
    (createIdempotentHandler cache (some k) correlationId false).handlerInvoked = true
    ∧ (createIdempotentHandler cache (some k) correlationId false).cache = cache ++ [k]
    ∧ (createIdempotentHandler (cache ++ [k]) (some k) correlationId false)
        = ⟨cache ++ [k], false, true, false⟩
    ∧ createIdempotentHandler cache2 (some k) correlationId b
        = ⟨cache2, false, true, false⟩
    ∧ (createIdempotentHandler cache (some k) correlationId true)
        = ⟨cache, true, false, true⟩
    ∧ (createIdempotentHandler
        (createIdempotentHandler cache (some k) correlationId true).cache
        (some k) correlationId false).handlerInvoked = true := by
  have hres : resolveId (some k) correlationId = some k := by
    simp [resolveId, strTruthy, hk]
  have hnm : k ∉ cache := by simpa using hnew
  have hdm : k ∈ cache2 := by simpa using hdup
  have hmem : k ∈ cache ++ [k] := by simp
  refine ⟨?_, ?_, ?_, ?_, ?_, ?_⟩ <;>
    simp [createIdempotentHandler, hres, hnm, hdm, hmem]

/-- Witness for C5 with key "order-1", empty fresh cache and a cache already
holding the key. -/
theorem C5_idempotent_exactly_once_witness :
    (createIdempotentHandler [] (some "order-1") none false).handlerInvoked = true
    ∧ (createIdempotentHandler [] (some "order-1") none false).cache = [] ++ ["order-1"]
    ∧ (createIdempotentHandler ([] ++ ["order-1"]) (some "order-1") none false)
        = ⟨[] ++ ["order-1"], false, true, false⟩
    ∧ createIdempotentHandler ["order-1"] (some "order-1") none true
        = ⟨["order-1"], false, true, false⟩
    ∧ (createIdempotentHandler [] (some "order-1") none true)
        = ⟨[], true, false, true⟩
    ∧ (createIdempotentHandler
        (createIdempotentHandler [] (some "order-1") none true).cache
        (some "order-1") none false).handlerInvoked = true :=
  C5_idempotent_exactly_once [] ["order-1"] "order-1" none true
    (by decide) (by decide) (by decide)

lemma processKeys_append (cache : List String) (ks : List String)
    (hnd : ks.Nodup) (hne : ∀ k ∈ ks, k ≠ "") (hfresh : ∀ k ∈ ks, k ∉ cache) :
    processKeys cache ks = cache ++ ks := by
  induction ks generalizing cache with
  | nil => simp [processKeys]
  | cons k ks ih =>
      have hk : k ≠ "" := hne k (by simp)
      have hkc : k ∉ cache := hfresh k (by simp)
      have hres : resolveId (some k) none = some k := by
        simp [resolveId, strTruthy, hk]
      rw [processKeys]
      have hstep : (createIdempotentHandler cache (some k) none false).cache
          = cache ++ [k] := by
        simp [createIdempotentHandler, hres, hkc]
      rw [hstep, ih]
      · simp
      · exact hnd.of_cons
      · exact fun x hx => hne x (by simp [hx])
      · intro x hx
        have hxk : x ≠ k := by
          rintro rfl
          exact (List.nodup_cons.1 hnd).1 hx
        have hxc : x ∉ cache := hfresh x (by simp [hx])
        simp [hxk, hxc]

/-- C9, evaluating the code at the failing input: every call of the
idempotency filter returns a cache that extends the previous one (nothing is
ever evicted, expired or removed), and a run of n successful deliveries with
distinct non-empty keys starting from the empty cache leaves all n keys
recorded — the recorded-key set grows without bound, with no eviction path in
createIdempotentHandler. -/
theorem C9_code_bug_unbounded_cache (cache : List String)
    (messageId correlationId : Option String) (b : Bool) (ks : List String)
    (hnd : ks.Nodup) (hne : ∀ k ∈ ks, k ≠ "") :
    (∃ ext, (createIdempotentHandler cache messageId correlationId b).cache
        = cache ++ ext)
    ∧ processKeys [] ks = ks
    ∧ (processKeys [] ks).length = ks.length := by
  refine ⟨?_, ?_, ?_⟩
  · unfold createIdempotentHandler
    cases hres : resolveId messageId correlationId with
    | none => exact ⟨[], by simp⟩
    | some key =>
        by_cases hc : key ∈ cache
        · exact ⟨[], by simp [hc]⟩
        · cases b
          · exact ⟨[key], by simp [hc]⟩
          · exact ⟨[], by simp [hc]⟩
  · simpa using processKeys_append [] ks hnd hne (by simp)
  · rw [show processKeys [] ks = ks from by
        simpa using processKeys_append [] ks hnd hne (by simp)]

/-- Witness for C9 with three distinct keys processed from the empty cache. -/
theorem C9_code_bug_unbounded_cache_witness :
    (∃ ext, (createIdempotentHandler ["x"] (some "a") none false).cache
        = ["x"] ++ ext)
    ∧ processKeys [] ["a", "b", "c"] = ["a", "b", "c"]
    ∧ (processKeys [] ["a", "b", "c"]).length = (["a", "b", "c"] : List String).length :=
  C9_code_bug_unbounded_cache ["x"] (some "a") none false ["a", "b", "c"]
    (by decide) (by decide)

/-! ## Saga orchestrator

Embeds SagaOrchestrator.  The activeSteps Map from saga id to step list is an
association list (first binding wins on lookup, as a Map with unique keys);
startSaga stores a copy of the step list, handleStepComplete looks the step up
with indexOf (first occurrence) and never writes the map back,
handleStepFailed compensates the prefix before the failed step in reverse and
deletes the entry.  Published saga events are captured as SagaMsg values; the
opaque data / result / error payload fields carry no information used by the
orchestrator and are omitted.  The cont constructor is the saga.continue
event. -/

inductive SagaMsg where
  | start (sagaId : String) (step : Option String) (remainingSteps : List String)
  | cont (sagaId : String) (step : String) (remainingSteps : List String)
  | completed (sagaId : String)
  | compensate (sagaId : String) (step : String)
  | failed (sagaId : String) (failedStep : String)
deriving DecidableEq, Repr

abbrev SagaState : Type := List (String × List String)

def lookupSaga (st : SagaState) (sagaId : String) : Option (List String) :=
  (st.find? (fun p => p.1 == sagaId)).map Prod.snd

def deleteSaga (st : SagaState) (sagaId : String) : SagaState :=
  st.filter (fun p => p.1 != sagaId)

def setSaga (st : SagaState) (sagaId : String) (steps : List String) : SagaState :=
  (sagaId, steps) :: deleteSaga st sagaId

/-- startSaga: record the step list and publish the saga.start event for the
first step with the remaining steps attached (steps[0] is undefined for an
empty list, modelled by head?). -/
def startSaga (st : SagaState) (sagaId : String) (steps : List String) :
    SagaState × List SagaMsg :=
  (setSaga st sagaId steps,
   [SagaMsg.start sagaId steps.head? (steps.drop 1)])

/-- handleStepComplete: unknown saga or step absent from the stored list is a
no-op; otherwise take the suffix after the first occurrence of the completed
step — if empty, delete the saga and publish saga.completed, else publish
saga.continue for the next step, leaving the stored list untouched. -/
def handleStepComplete (st : SagaState) (sagaId completedStep : String) :
    SagaState × List SagaMsg :=
  match lookupSaga st sagaId with
  | none => (st, [])
  | some steps =>
      match steps.findIdx? (fun s => s == completedStep) with
      | none => (st, [])
      | some stepIndex =>
          match steps.drop (stepIndex + 1) with
          | [] => (deleteSaga st sagaId, [SagaMsg.completed sagaId])
          | nextStep :: rest => (st, [SagaMsg.cont sagaId nextStep rest])

/-- handleStepFailed: unknown saga or step absent is a no-op; otherwise
publish saga.compensate for every step before the first occurrence of the
failed step, in reverse order, then delete the saga and publish saga.failed. -/
def handleStepFailed (st : SagaState) (sagaId failedStep : String) :
    SagaState × List SagaMsg :=
  match lookupSaga st sagaId with
  | none => (st, [])
  | some steps =>
      match steps.findIdx? (fun s => s == failedStep) with
      | none => (st, [])
      | some stepIndex =>
          (deleteSaga st sagaId,
           ((steps.take stepIndex).reverse).map (fun s => SagaMsg.compensate sagaId s)
             ++ [SagaMsg.failed sagaId failedStep])

def getSagaStatus (st : SagaState) (sagaId : String) :
    Option (List String × Bool) :=
  (lookupSaga st sagaId).map (fun steps => (steps, true))

lemma lookupSaga_deleteSaga (st : SagaState) (sagaId : String) :
    lookupSaga (deleteSaga st sagaId) sagaId = none := by
  unfold lookupSaga deleteSaga
  rw [Option.map_eq_none', List.find?_eq_none]
  intro x hx
  simpa using (List.mem_filter.1 hx).2

/-- C1 counterexample: after startSaga with steps [a, b, c] the stored list is
[a, b, c] with head a; a completion notice for b — not the head — publishes a
saga.continue event for c instead of being a no-op. -/
theorem C1_counterexample_nonhead_completion_publishes :
    lookupSaga (startSaga [] "s" ["a", "b", "c"]).1 "s" = some ["a", "b", "c"]
    ∧ (["a", "b", "c"] : List String).head? = some "a"
    ∧ ("b" : String) ≠ "a"
    ∧ (handleStepComplete (startSaga [] "s" ["a", "b", "c"]).1 "s" "b").2
        = [SagaMsg.cont "s" "c" []]
    ∧ (handleStepComplete (startSaga [] "s" ["a", "b", "c"]).1 "s" "b").1
        = (startSaga [] "s" ["a", "b", "c"]).1 := by
  decide

/-- C1 amended: handleStepComplete is a no-op (state unchanged, nothing
published) exactly when the saga id is unknown or the completed step does not
occur in the stored step list; when the step occurs anywhere in the stored
list — head or not — the call publishes an event. -/
theorem C1_amended_noop_iff_step_absent (st : SagaState) (sagaId step : String) :
    handleStepComplete st sagaId step = (st, [])
      ↔ ∀ steps, lookupSaga st sagaId = some steps → step ∉ steps := by
  cases hl : lookupSaga st sagaId with
  | none => simp [handleStepComplete, hl]
  | some steps =>
      cases hf : steps.findIdx? (fun s => s == step) with
      | none =>
          have habs : step ∉ steps := by
            rw [List.findIdx?_eq_none_iff] at hf
            intro hmem
            simpa using hf step hmem
          simp only [handleStepComplete, hl, hf]
          constructor
          · rintro - steps2 hs2
            injection hs2 with h
            exact h ▸ habs
          · intro _
            trivial
      | some i =>
          have hmem : step ∈ steps := by
            rw [List.findIdx?_eq_some_iff_getElem] at hf
            obtain ⟨hlen, hp, -⟩ := hf
            have : steps[i] = step := by simpa using hp
            exact this ▸ steps.getElem_mem hlen
          constructor
          · intro heq
            exfalso
            have hsnd := congrArg Prod.snd heq
            simp only [handleStepComplete, hl, hf] at hsnd
            cases hdrop : steps.drop (i + 1) with
            | nil => rw [hdrop] at hsnd; simp at hsnd
            | cons n rest => rw [hdrop] at hsnd; simp at hsnd
          · intro hall
            exact absurd hmem (hall steps rfl)

/-- C2: whenever the failed step occurs in the tracked saga's step list (at
first index i), handleStepFailed publishes exactly the compensation events for
the steps strictly before it, in reverse of the original order, followed by
the saga.failed event, and removes the saga from active tracking. -/
theorem C2_compensations_reverse_then_delete (st : SagaState)
    (sagaId failedStep : String) (steps : List String) (i : Nat)
    (h1 : lookupSaga st sagaId = some steps)
    (h2 : steps.findIdx? (fun s => s == failedStep) = some i) :
    (handleStepFailed st sagaId failedStep).2
      = ((steps.take i).reverse).map (fun s => SagaMsg.compensate sagaId s)
          ++ [SagaMsg.failed sagaId failedStep]
    ∧ lookupSaga (handleStepFailed st sagaId failedStep).1 sagaId = none := by
  constructor
  · simp [handleStepFailed, h1, h2]
  · simp only [handleStepFailed, h1, h2]
    exact lookupSaga_deleteSaga st sagaId

/-- Witness for C2, the end-to-end scenario: startSaga s1 with steps
[reserve, pay, ship], then handleStepFailed at pay yields exactly one
compensation event, for reserve, then the saga-failed event, and the saga is
removed from active tracking. -/
theorem C2_compensations_reverse_then_delete_witness :
    (handleStepFailed (startSaga [] "s1" ["reserve", "pay", "ship"]).1 "s1" "pay").2
      = [SagaMsg.compensate "s1" "reserve", SagaMsg.failed "s1" "pay"]
    ∧ lookupSaga
        (handleStepFailed (startSaga [] "s1" ["reserve", "pay", "ship"]).1 "s1" "pay").1
        "s1" = none := by
  have h := C2_compensations_reverse_then_delete
    (startSaga [] "s1" ["reserve", "pay", "ship"]).1 "s1" "pay"
    ["reserve", "pay", "ship"] 1 (by decide) (by decide)
  simpa using h

/-- C10: the stored step list is never mutated by a completion that leaves
steps remaining — the map entry and getSagaStatus still hold the original full
list, another event is published, and a repeated completion notice for the
same step produces the identical publication again instead of a no-op; the
entry changes only by deletion, when the completed step is the last one or
when a step fails. -/
theorem C10_active_list_immutable_on_continue (st : SagaState)
    (sagaId step : String) (steps : List String) (i : Nat)
    (h1 : lookupSaga st sagaId = some steps)
    (h2 : steps.findIdx? (fun s => s == step) = some i) :
    (steps.drop (i + 1) ≠ [] →
        (handleStepComplete st sagaId step).1 = st
        ∧ getSagaStatus (handleStepComplete st sagaId step).1 sagaId
            = some (steps, true)
        ∧ (handleStepComplete st sagaId step).2 ≠ []
        ∧ handleStepComplete (handleStepComplete st sagaId step).1 sagaId step
            = handleStepComplete st sagaId step)
    ∧ (steps.drop (i + 1) = [] →
        lookupSaga (handleStepComplete st sagaId step).1 sagaId = none)
    ∧ lookupSaga (handleStepFailed st sagaId step).1 sagaId = none := by
  refine ⟨?_, ?_, ?_⟩
  · intro hrem
    cases hdrop : steps.drop (i + 1) with
    | nil => exact absurd hdrop hrem
    | cons nextStep rest =>
        have hres : handleStepComplete st sagaId step
            = (st, [SagaMsg.cont sagaId nextStep rest]) := by
          simp [handleStepComplete, h1, h2, hdrop]
        have hfst : (handleStepComplete st sagaId step).1 = st := by rw [hres]
        refine ⟨hfst, ?_, by rw [hres]; simp, ?_⟩
        · rw [hfst]
          simp [getSagaStatus, h1]
        · rw [hfst]
  · intro hdrop
    have hres : handleStepComplete st sagaId step
        = (deleteSaga st sagaId, [SagaMsg.completed sagaId]) := by
      simp [handleStepComplete, h1, h2, hdrop]
    rw [hres]
    exact lookupSaga_deleteSaga st sagaId
  · simp only [handleStepFailed, h1, h2]
    exact lookupSaga_deleteSaga st sagaId

/-- Witness for C10: saga w with steps [a, b, c]; completing a leaves the
stored list intact and republishing-on-repeat, completing c (the last step)
deletes the entry, as does a failure. -/
theorem C10_active_list_immutable_on_continue_witness :
    ((["a", "b", "c"] : List String).drop 1 ≠ [] →
        (handleStepComplete [("w", ["a", "b", "c"])] "w" "a").1 = [("w", ["a", "b", "c"])]
        ∧ getSagaStatus (handleStepComplete [("w", ["a", "b", "c"])] "w" "a").1 "w"
            = some (["a", "b", "c"], true)
        ∧ (handleStepComplete [("w", ["a", "b", "c"])] "w" "a").2 ≠ []
        ∧ handleStepComplete (handleStepComplete [("w", ["a", "b", "c"])] "w" "a").1 "w" "a"
            = handleStepComplete [("w", ["a", "b", "c"])] "w" "a")
    ∧ ((["a", "b", "c"] : List String).drop 1 = [] →
        lookupSaga (handleStepComplete [("w", ["a", "b", "c"])] "w" "a").1 "w" = none)
    ∧ lookupSaga (handleStepFailed [("w", ["a", "b", "c"])] "w" "a").1 "w" = none :=
  C10_active_list_immutable_on_continue [("w", ["a", "b", "c"])] "w" "a"
    ["a", "b", "c"] 0 (by decide) (by decide)

/-! ## Request/reply correlator

Embeds the timeout and reply paths of RabbitMQConnection.rpc for one call.
The call creates an exclusive reply queue with a consumer (the waiting-table
entry for the generated correlation id) and a timeout timer.  The timeout
callback only rejects the promise with TimeoutError: the code contains no
cleanup — the consumer is not cancelled and the queue is not deleted.  The
consumer callback, on a message whose correlation id matches, clears the
timer, parses, acks, and resolves the promise (parsing is assumed to succeed;
settling a promise is effective only while it is pending). -/

inductive PromiseState where
  | pending
  | resolvedReply
  | rejectedTimeout
deriving DecidableEq, Repr

structure RpcState where
  promise : PromiseState
  consumerActive : Bool
deriving DecidableEq, Repr

/-- State of an rpc call right after registering the consumer and the timer. -/
def rpcInit : RpcState := ⟨PromiseState.pending, true⟩

/-- The timer callback: reject(TimeoutError) — and nothing else. -/
def rpcOnTimeout (s : RpcState) : RpcState :=
  { s with
    promise := if s.promise = PromiseState.pending
      then PromiseState.rejectedTimeout else s.promise }

structure ReplyEffect where
  acked : Bool
  settledPromise : Bool
deriving DecidableEq, Repr

/-- The reply consumer callback on an inbound reply: while the subscription is
active, a matching correlation id leads to parse + ack + resolve. -/
def rpcOnReply (s : RpcState) (isMatch : Bool) : RpcState × ReplyEffect :=
  if s.consumerActive && isMatch then
    ({ s with
        promise := if s.promise = PromiseState.pending
          then PromiseState.resolvedReply else s.promise },
     ⟨true, decide (s.promise = PromiseState.pending)⟩)
  else
    (s, ⟨false, false⟩)

/-- C7, evaluating the code at the failing input: a call with no reply before
the timeout does reject with the typed Timeout error, but its waiting-table
entry is not removed — the reply consumer stays active, and a matching reply
arriving after the timeout is still consumed and acknowledged by it (its
resolve call settles nothing), rather than being discarded for lack of a
waiter. -/
theorem C7_code_bug_timeout_keeps_subscription :
    (rpcOnTimeout rpcInit).promise = PromiseState.rejectedTimeout
    ∧ (rpcOnTimeout rpcInit).consumerActive = true
    ∧ (rpcOnReply (rpcOnTimeout rpcInit) true).2.acked = true
    ∧ (rpcOnReply (rpcOnTimeout rpcInit) true).2.settledPromise = false
    ∧ (rpcOnReply (rpcOnTimeout rpcInit) true).1.consumerActive = true := by
  decide

end RabbitMQSpec
